import Mathlib

/-!
Shallow embedding of the interactive-map repository's table core:

* `src/components/DataTable.tsx` (shipped inside `src/app/server-table/page.tsx`):
  the filter predicates (`exactMatchFilter`, `multiSelectFilter`,
  `dateRangeFilter`), the column/filter binder (`processedColumns`), the
  mode gate (`isServerSide`, `manualPagination`, `manualSorting`,
  `manualFiltering`), the state-change handlers (`step`) and the filter
  control renderer (`renderFilter`).
* `src/app/api/users/route.ts`: `filterUsers`, `sortUsers` and the
  pagination slice of the `GET` handler (`paginateUsers`,
  `processUsersQuery`).

JavaScript runtime values that flow through the table cells are modelled by
the `Value` type (strings, numbers as `Int`, `null`, `undefined`); `Date`
parsing (`new Date(v)`) is modelled by `parseDate`, restricted to the
ISO `YYYY-MM-DD` date strings this repository produces, with timestamps
encoded order-isomorphically as `y*10000 + m*100 + d`; `localeCompare` is
modelled by `compareStrings` (sign of the lexicographic comparison, which
is what the ASCII data of this repository exercises).
-/

/-- A JavaScript value as it appears in a table cell or a filter value. -/
inductive Value where
  | str (s : String)
  | num (n : Int)
  | null
  | undefined
deriving DecidableEq, Repr

/-- JavaScript truthiness of a `Value`: `""`, `0`, `null`, `undefined` are falsy. -/
def truthy : Value → Bool
  | .str s => s != ""
  | .num n => n != 0
  | .null => false
  | .undefined => false

/-- JavaScript strict equality `===` on the primitive values of this model:
no cross-type coercion, so a number never equals a string. -/
def jsStrictEq : Value → Value → Bool
  | .str a, .str b => a == b
  | .num a, .num b => a == b
  | .null, .null => true
  | .undefined, .undefined => true
  | _, _ => false

/-- JavaScript `String(v)` on the values of this model. -/
def jsToString : Value → String
  | .str s => s
  | .num n => toString n
  | .null => "null"
  | .undefined => "undefined"

/-- Lexicographic comparison of character lists, the core of the
`localeCompare` model. -/
def cmpChars : List Char → List Char → Int
  | [], [] => 0
  | [], _ :: _ => -1
  | _ :: _, [] => 1
  | a :: as, b :: bs =>
    if a < b then -1 else if b < a then 1 else cmpChars as bs

/-- Sign of `a.localeCompare(b)` for the ASCII strings of this repository:
lexicographic string comparison. -/
def compareStrings (a b : String) : Int :=
  cmpChars a.toList b.toList

/-- Split a character list on a separator, JS `s.split(sep)` semantics:
the empty list yields one empty field. -/
def splitCharsAux (sep : Char) : List Char → List Char → List (List Char)
  | [], acc => [acc.reverse]
  | c :: t, acc =>
    if c == sep then acc.reverse :: splitCharsAux sep t []
    else splitCharsAux sep t (c :: acc)

/-- JS `s.split(sep)` over character lists. -/
def splitChars (sep : Char) (l : List Char) : List (List Char) :=
  splitCharsAux sep l []

/-- Parse a nonempty all-digit character list as a natural number. -/
def parseNatAux : List Char → Nat → Option Nat
  | [], acc => some acc
  | c :: t, acc =>
    if c.isDigit then parseNatAux t (acc * 10 + (c.toNat - '0'.toNat))
    else none

/-- Parse a nonempty all-digit character list as a natural number. -/
def parseNatChars (l : List Char) : Option Nat :=
  if l.isEmpty then none else parseNatAux l 0

/-- JS `s.toLowerCase()`. -/
def strToLower (s : String) : String :=
  ⟨s.toList.map Char.toLower⟩

/-- Parse an ISO `YYYY-MM-DD` date string to an order-isomorphic timestamp;
any other string is an invalid date (`NaN`), modelled as `none`. -/
def parseIsoDate (s : String) : Option Int :=
  match splitChars '-' s.toList with
  | [y, m, d] =>
    match parseNatChars y, parseNatChars m, parseNatChars d with
    | some yn, some mn, some dn =>
      if y.length == 4 && m.length == 2 && d.length == 2 &&
         1 ≤ mn && mn ≤ 12 && 1 ≤ dn && dn ≤ 31 then
        some ((yn : Int) * 10000 + (mn : Int) * 100 + (dn : Int))
      else none
    | _, _, _ => none
  | _ => none

/-- `new Date(v).getTime()` on this model's values: a number is already a
timestamp, a string parses as an ISO date or is invalid (`none` = `NaN`),
`null` coerces to the epoch, `undefined` is invalid. -/
def parseDate : Value → Option Int
  | .num n => some n
  | .str s => parseIsoDate s
  | .null => some 0
  | .undefined => none

/-- A row is an opaque record: a list of named cell values.
`row.getValue(columnId)` reads a named field, `undefined` when absent. -/
def Row := List (String × Value)

/-- `row.getValue(columnId)`. -/
def rowGetValue (r : Row) (columnId : String) : Value :=
  match r.find? (fun p => p.1 == columnId) with
  | some p => p.2
  | none => .undefined

/-- DataTable.tsx `exactMatchFilter`:
`(row, columnId, value) => row.getValue(columnId) === value`. -/
def exactMatchFilter (row : Row) (columnId : String) (value : Value) : Bool :=
  jsStrictEq (rowGetValue row columnId) value

/-- DataTable.tsx `multiSelectFilter`: absent or empty array of selected
values includes the row; otherwise `value.includes(cellValue)` (strict
`===` membership). -/
def multiSelectFilter (row : Row) (columnId : String)
    (value : Option (List String)) : Bool :=
  match value with
  | none => true
  | some l =>
    if l.length == 0 then true
    else l.any (fun s => jsStrictEq (.str s) (rowGetValue row columnId))

/-- The `{from?: Date, to?: Date}` filter value of a date-range filter;
`none` models an absent (`undefined`) bound. -/
structure DateRangeValue where
  fromDate : Option Int
  toDate : Option Int
deriving DecidableEq, Repr

/-- DataTable.tsx `dateRangeFilter`: vacuous when the value is absent or
both bounds are absent; a falsy cell is rejected before parsing; an
unparsable cell (`isNaN(cellDate.getTime())`) is rejected; otherwise the
parsed date must lie within the present bounds, both inclusive. -/
def dateRangeFilter (row : Row) (columnId : String)
    (value : Option DateRangeValue) : Bool :=
  match value with
  | none => true
  | some v =>
    if v.fromDate == none && v.toDate == none then true
    else
      let cellValue := rowGetValue row columnId
      if !(truthy cellValue) then false
      else
        match parseDate cellValue with
        | none => false
        | some t =>
          if (match v.fromDate with | some f => decide (t < f) | none => false) then false
          else if (match v.toDate with | some e => decide (e < t) | none => false) then false
          else true

/-! ## Column / filter binder (DataTable.tsx `processedColumns`) -/

/-- The declared kind of a filter control (`FilterConfig.type`). -/
inductive FilterType where
  | text
  | select
  | multiSelect
  | dateRange
  | number
deriving DecidableEq, Repr

/-- A `FilterConfig` declaration; display hints (`label`, `placeholder`,
`options`) only affect rendering and are omitted. -/
structure FilterConfig where
  columnId : String
  type : FilterType
deriving DecidableEq, Repr

/-- A `ColumnDef` as this repository declares it: an optional explicit `id`
and an optional `accessorKey`; the repository's columns declare no filter
function of their own. -/
structure ColumnSpec where
  id : Option String
  accessorKey : Option String
deriving DecidableEq, Repr

/-- `column.id ?? (column.accessorKey !== undefined ? String(accessorKey) : undefined)`. -/
def normalizedId (c : ColumnSpec) : Option String :=
  match c.id with
  | some i => some i
  | none => c.accessorKey

/-- The filter functions `processedColumns` can attach to a column. -/
inductive FilterFnKind where
  | exactMatch
  | multiSelect
  | dateRange
deriving DecidableEq, Repr

/-- `selectFilterColumnIds`: the `columnId`s of the `select`-typed declarations. -/
def selectIdsOf (fs : List FilterConfig) : List String :=
  (fs.filter (fun f => f.type == FilterType.select)).map (fun f => f.columnId)

/-- `multiSelectFilterColumnIds`. -/
def multiSelectIdsOf (fs : List FilterConfig) : List String :=
  (fs.filter (fun f => f.type == FilterType.multiSelect)).map (fun f => f.columnId)

/-- `dateRangeFilterColumnIds`. -/
def dateRangeIdsOf (fs : List FilterConfig) : List String :=
  (fs.filter (fun f => f.type == FilterType.dateRange)).map (fun f => f.columnId)

/-- The per-column branch of `processedColumns`: attach `exactMatchFilter`,
`multiSelectFilter` or `dateRangeFilter` when the column's normalized id is
in the corresponding declaration set, in that order; otherwise leave the
column unchanged (no filter function of its own). -/
def assignFilterFn (fs : List FilterConfig) (c : ColumnSpec) : Option FilterFnKind :=
  match normalizedId c with
  | none => none
  | some i =>
    if (selectIdsOf fs).contains i then some .exactMatch
    else if (multiSelectIdsOf fs).contains i then some .multiSelect
    else if (dateRangeIdsOf fs).contains i then some .dateRange
    else none

/-- A column after binding: the original column plus the filter function
`processedColumns` attached (`none` = the column kept its default). -/
structure ProcessedColumn where
  col : ColumnSpec
  filterFn : Option FilterFnKind
deriving DecidableEq, Repr

/-- DataTable.tsx `processedColumns`: map every column through the binder. -/
def processedColumns (cols : List ColumnSpec) (fs : List FilterConfig) :
    List ProcessedColumn :=
  cols.map (fun c => ⟨c, assignFilterFn fs c⟩)

/-- `table.getColumn(columnId)`: find the column whose id matches. -/
def getColumn (cols : List ColumnSpec) (columnId : String) : Option ColumnSpec :=
  cols.find? (fun c => normalizedId c == some columnId)

/-- The kind of filter control `renderFilter` produces when it renders one. -/
inductive RenderedControl where
  | textInput
  | selectBox
  | numberInput
  | multiSelectMenu
  | dateRangePicker
deriving DecidableEq, Repr

/-- DataTable.tsx `renderFilter`: `table.getColumn(filter.columnId)`;
`if (!column) return null`; otherwise render the control for the declared
type. -/
def renderFilter (cols : List ColumnSpec) (f : FilterConfig) :
    Option RenderedControl :=
  match getColumn cols f.columnId with
  | none => none
  | some _ =>
    match f.type with
    | .text => some .textInput
    | .select => some .selectBox
    | .number => some .numberInput
    | .multiSelect => some .multiSelectMenu
    | .dateRange => some .dateRangePicker

/-! ## Mode gate (DataTable.tsx lines 497-501) -/

/-- The `serverSide` prop: `enabled`, the delegate callbacks that were
supplied (modelled by presence flags, since the controller only branches
on their presence), and the three optional manual sub-flags. -/
structure ServerSideConfig where
  enabled : Bool
  pageCount : Int
  loading : Bool
  hasOnPaginationChange : Bool
  hasOnSortingChange : Bool
  hasOnColumnFiltersChange : Bool
  manualPagination : Option Bool
  manualSorting : Option Bool
  manualFiltering : Option Bool
deriving DecidableEq, Repr

/-- `const isServerSide = serverSide?.enabled || false`. -/
def isServerSide (s : Option ServerSideConfig) : Bool :=
  (s.map (fun c => c.enabled)).getD false

/-- `const manualPagination = serverSide?.manualPagination ?? isServerSide`. -/
def manualPagination (s : Option ServerSideConfig) : Bool :=
  (s.bind (fun c => c.manualPagination)).getD (isServerSide s)

/-- `const manualSorting = serverSide?.manualSorting ?? isServerSide`. -/
def manualSorting (s : Option ServerSideConfig) : Bool :=
  (s.bind (fun c => c.manualSorting)).getD (isServerSide s)

/-- `const manualFiltering = serverSide?.manualFiltering ?? isServerSide`. -/
def manualFiltering (s : Option ServerSideConfig) : Bool :=
  (s.bind (fun c => c.manualFiltering)).getD (isServerSide s)

/-! ## Table state and the change handlers (DataTable.tsx lines 488-495 and 600-622) -/

/-- One entry of a `SortingState`: `{id, desc}`. -/
structure SortEntry where
  id : String
  desc : Bool
deriving DecidableEq, Repr

/-- TanStack `SortingState`. -/
def SortingState := List SortEntry

/-- The value stored for one active column filter, as this repository's
controls produce it: a plain string (text / select / number inputs), an
array of selected strings (multi-select), or a `{from?, to?}` range. -/
inductive FilterValue where
  | text (s : String)
  | multi (l : List String)
  | range (r : DateRangeValue)
deriving DecidableEq, Repr

/-- TanStack `ColumnFiltersState`: the active `{id, value}` entries. -/
def ColumnFiltersState := List (String × FilterValue)

/-- `{pageIndex, pageSize}`. -/
structure PaginationState where
  pageIndex : Nat
  pageSize : Nat
deriving DecidableEq, Repr

/-- The five state slots `DataTable` owns via `useState`. -/
structure TableState where
  sorting : SortingState
  columnFilters : ColumnFiltersState
  columnVisibility : List (String × Bool)
  rowSelection : List String
  pagination : PaginationState

/-- A delegate callback invocation emitted by a state-change handler. -/
inductive Emit where
  | sortingChanged (s : SortingState)
  | filtersChanged (f : ColumnFiltersState)
  | paginationChanged (p : PaginationState)

/-- A state-change request entering a handler; TanStack hands every setter
an updater, modelled uniformly as a function of the previous slot value. -/
inductive Event where
  | sortingChange (u : SortingState → SortingState)
  | filtersChange (u : ColumnFiltersState → ColumnFiltersState)
  | paginationChange (u : PaginationState → PaginationState)
  | visibilityChange (u : List (String × Bool) → List (String × Bool))
  | selectionChange (u : List String → List String)

/-- The state-change handlers of `useReactTable` (`onSortingChange`,
`onColumnFiltersChange`, `onPaginationChange`, `onColumnVisibilityChange`,
`onRowSelectionChange`): apply the updater to the local slot and, for the
three delegable concerns, additionally invoke the matching `serverSide`
callback with the new value when the caller supplied one. Callback
invocations are modelled as emitted messages; the result is wrapped in
`Except` so that a raised exception would be observable — the handler
bodies contain no throwing operation, which `settersTotal` below proves. -/
def step (cfg : Option ServerSideConfig) (enableRowSelection : Bool)
    (st : TableState) : Event → Except String (TableState × List Emit)
  | .sortingChange u =>
    let next := u st.sorting
    .ok ({ st with sorting := next },
      if (cfg.map (fun c => c.hasOnSortingChange)).getD false then
        [.sortingChanged next] else [])
  | .filtersChange u =>
    let next := u st.columnFilters
    .ok ({ st with columnFilters := next },
      if (cfg.map (fun c => c.hasOnColumnFiltersChange)).getD false then
        [.filtersChanged next] else [])
  | .paginationChange u =>
    let next := u st.pagination
    .ok ({ st with pagination := next },
      if (cfg.map (fun c => c.hasOnPaginationChange)).getD false then
        [.paginationChanged next] else [])
  | .visibilityChange u =>
    .ok ({ st with columnVisibility := u st.columnVisibility }, [])
  | .selectionChange u =>
    if enableRowSelection then
      .ok ({ st with rowSelection := u st.rowSelection }, [])
    else
      .ok (st, [])

/-! ## Local filtered row model (TanStack `getFilteredRowModel`, active
when `manualFiltering` is false) -/

/-- Evaluate one bound filter function on one row. An unset filter function
falls back to the table library's default, which is outside this
repository; modelled from the spec: the spec leaves the default per-column
matching strategy open (§9, recommending that no filtering be applied), so
the default is vacuous here. Value shapes that the repository's controls
never produce for a kind (e.g. a range value on an exact-match column)
compare unequal under `===`, hence reject. -/
def evalFilterFn (kind : Option FilterFnKind) (r : Row) (columnId : String) :
    FilterValue → Bool
  | .text s =>
    match kind with
    | some .exactMatch => exactMatchFilter r columnId (.str s)
    | some .multiSelect => multiSelectFilter r columnId (some [s])
    | some .dateRange => false
    | none => true
  | .multi l =>
    match kind with
    | some .multiSelect => multiSelectFilter r columnId (some l)
    | some .exactMatch => false
    | some .dateRange => false
    | none => true
  | .range dr =>
    match kind with
    | some .dateRange => dateRangeFilter r columnId (some dr)
    | some .exactMatch => false
    | some .multiSelect => false
    | none => true

/-- A row passes the active filters when every `{id, value}` entry's bound
predicate accepts it (logical AND). -/
def rowPassesFilters (cols : List ColumnSpec) (fs : List FilterConfig)
    (active : ColumnFiltersState) (r : Row) : Bool :=
  active.all (fun e =>
    evalFilterFn
      (match (processedColumns cols fs).find?
          (fun pc => normalizedId pc.col == some e.1) with
        | some pc => pc.filterFn
        | none => none)
      r e.1 e.2)

/-- The locally computed filtered row set: `data` restricted to the rows
passing every active filter. -/
def localFilteredRows (cols : List ColumnSpec) (fs : List FilterConfig)
    (data : List Row) (active : ColumnFiltersState) : List Row :=
  data.filter (rowPassesFilters cols fs active)

/-! ## Mock API route (`src/app/api/users/route.ts`) -/

/-- The `User` record served by the mock endpoint. -/
structure User where
  id : Int
  name : String
  email : String
  role : String
  status : String
  createdAt : String
  age : Int
deriving DecidableEq, Repr

/-- `(user as any)[sortBy]`: dynamic field access on a `User`. -/
def userField (u : User) (k : String) : Value :=
  if k == "id" then .num u.id
  else if k == "name" then .str u.name
  else if k == "email" then .str u.email
  else if k == "role" then .str u.role
  else if k == "status" then .str u.status
  else if k == "createdAt" then .str u.createdAt
  else if k == "age" then .num u.age
  else .undefined

/-- The query parameters of the `GET` handler after `parseSearchParams`
and the `parseInt` defaults (`page || '0'`, `pageSize || '10'`,
`minAge`/`maxAge` parsed as integers). -/
structure QueryParams where
  page : Nat
  pageSize : Nat
  sortBy : Option String
  sortOrder : Option String
  search : Option String
  status : Option String
  role : Option String
  roles : Option String
  startDate : Option String
  endDate : Option String
  minAge : Option Int
  maxAge : Option Int
deriving Repr

/-- `hay.toLowerCase().includes(needle)` character-list core: does `hay`
start with `needle`? -/
def charsStartWith : List Char → List Char → Bool
  | _, [] => true
  | [], _ :: _ => false
  | hc :: hrest, nc :: nrest => hc == nc && charsStartWith hrest nrest

/-- Does `hay` contain `needle` as a contiguous run? -/
def charsContain : List Char → List Char → Bool
  | [], needle => needle.isEmpty
  | a :: t, needle => charsStartWith (a :: t) needle || charsContain t needle

/-- JavaScript `hay.includes(needle)`. -/
def jsIncludes (hay needle : String) : Bool :=
  charsContain hay.toList needle.toList

/-- route.ts `filterUsers`: apply in order the search (name/email substring,
case-insensitive), status, single role, multi roles, date range and age
range filters, each only when its parameter is present. Date comparisons
follow JS semantics: an invalid date compares false on both sides, so the
row passes. -/
def filterUsers (users : List User) (p : QueryParams) : List User :=
  let f1 := match p.search with
    | none => users
    | some s =>
      let search := strToLower s
      users.filter (fun u =>
        jsIncludes (strToLower u.name) search ||
        jsIncludes (strToLower u.email) search)
  let f2 := match p.status with
    | none => f1
    | some st => f1.filter (fun u => u.status == st)
  let f3 := match p.role with
    | none => f2
    | some ro => f2.filter (fun u => u.role == ro)
  let f4 := match p.roles with
    | none => f3
    | some rs =>
      let selectedRoles := (splitChars ',' rs.toList).map (fun c => String.mk c)
      f3.filter (fun u => selectedRoles.contains u.role)
  let f5 :=
    if p.startDate == none && p.endDate == none then f4
    else
      f4.filter (fun u =>
        let userDate := parseDate (.str u.createdAt)
        let startOk :=
          match p.startDate with
          | none => true
          | some sd =>
            match userDate, parseDate (.str sd) with
            | some ud, some s => decide (s ≤ ud)
            | _, _ => true
        let endOk :=
          match p.endDate with
          | none => true
          | some ed =>
            match userDate, parseDate (.str ed) with
            | some ud, some e => decide (ud ≤ e)
            | _, _ => true
        startOk && endOk)
  let f6 :=
    if p.minAge == none && p.maxAge == none then f5
    else
      f5.filter (fun u =>
        let lo := p.minAge.getD 0
        let hi := p.maxAge.getD 999
        decide (lo ≤ u.age) && decide (u.age ≤ hi))
  f6

/-- route.ts `sortUsers` comparator body: `localeCompare` for two strings,
subtraction for two numbers, a date difference for the (dead for
well-formed users) `createdAt` mixed case, `String(..)` comparison
otherwise. -/
def cmpUsers (sortBy : String) (a b : User) : Int :=
  match userField a sortBy, userField b sortBy with
  | .str x, .str y => compareStrings x y
  | .num x, .num y => x - y
  | av, bv =>
    if sortBy == "createdAt" then (parseDate av).getD 0 - (parseDate bv).getD 0
    else compareStrings (jsToString av) (jsToString bv)

/-- Non-strict comparator order used by the stable sort: ties keep input
order, matching the stability guarantee of `Array.prototype.sort`. -/
def userLe (sortBy : String) (a b : User) : Bool :=
  decide (cmpUsers sortBy a b ≤ 0)

/-- Stable insertion: place `x` before the first element it is
less-than-or-tied with. -/
def stableInsert (le : User → User → Bool) (x : User) : List User → List User
  | [] => [x]
  | b :: m => if le x b then x :: b :: m else b :: stableInsert le x m

/-- Stable sort by insertion, modelling the (stable) `Array.prototype.sort`. -/
def stableSortBy (le : User → User → Bool) : List User → List User
  | [] => []
  | x :: l => stableInsert le x (stableSortBy le l)

/-- route.ts `sortUsers`: no-op without a (truthy) `sortBy`; otherwise sort
ascending with the comparator and reverse the sorted copy when
`sortOrder === 'desc'`. -/
def sortUsers (users : List User) (sortBy sortOrder : Option String) :
    List User :=
  match sortBy with
  | none => users
  | some sb =>
    if sb == "" then users
    else
      let sorted := stableSortBy (userLe sb) users
      if sortOrder == some "desc" then sorted.reverse else sorted

/-- route.ts `GET` pagination: `filteredUsers.slice(page*pageSize,
page*pageSize + pageSize)`. -/
def paginateUsers (rows : List User) (page pageSize : Nat) : List User :=
  (rows.drop (page * pageSize)).take pageSize

/-- route.ts `GET` data pipeline: filter, then sort, then slice the page. -/
def processUsersQuery (users : List User) (p : QueryParams) : List User :=
  paginateUsers (sortUsers (filterUsers users p) p.sortBy p.sortOrder)
    p.page p.pageSize

/-! ## Helper lemmas -/

/-- Strict equality on this model's values coincides with propositional
equality (there is no `NaN` in the integer number model). -/
theorem jsStrictEq_iff (a b : Value) : jsStrictEq a b = true ↔ a = b := by
  cases a <;> cases b <;> simp [jsStrictEq]

/-! ## C1: the mode gate derives each effective manual flag as
`explicit override ?? delegated_flag` -/

/-- C1. For every `serverSide` configuration and each of the three
concerns, the effective manual flag equals the explicitly given sub-flag
when one is specified, and otherwise defaults to the top-level delegated
flag `isServerSide`; each is a pure function of the configuration alone. -/
theorem modeGateDerivation (s : Option ServerSideConfig) (b : Bool) :
    ((s.bind (fun c => c.manualPagination) = some b →
        manualPagination s = b) ∧
     (s.bind (fun c => c.manualPagination) = none →
        manualPagination s = isServerSide s)) ∧
    ((s.bind (fun c => c.manualSorting) = some b →
        manualSorting s = b) ∧
     (s.bind (fun c => c.manualSorting) = none →
        manualSorting s = isServerSide s)) ∧
    ((s.bind (fun c => c.manualFiltering) = some b →
        manualFiltering s = b) ∧
     (s.bind (fun c => c.manualFiltering) = none →
        manualFiltering s = isServerSide s)) := by
  refine ⟨⟨?_, ?_⟩, ⟨?_, ?_⟩, ⟨?_, ?_⟩⟩ <;> intro h <;>
    simp [manualPagination, manualSorting, manualFiltering, h]

/-- A delegated configuration that overrides `manualSorting` to `false`
and leaves `manualPagination` unspecified. -/
def gateDemoConfig : ServerSideConfig :=
  { enabled := true, pageCount := 5, loading := false,
    hasOnPaginationChange := true, hasOnSortingChange := true,
    hasOnColumnFiltersChange := true,
    manualPagination := none, manualSorting := some false,
    manualFiltering := none }

/-- C1 witness: on `gateDemoConfig` the explicit `manualSorting := false`
override wins while the unspecified `manualPagination` falls back to the
delegated flag. -/
theorem modeGateDerivation_witness :
    manualSorting (some gateDemoConfig) = false ∧
    manualPagination (some gateDemoConfig) = isServerSide (some gateDemoConfig) :=
  ⟨(modeGateDerivation (some gateDemoConfig) false).2.1.1 rfl,
   (modeGateDerivation (some gateDemoConfig) false).1.2 rfl⟩

/-! ## C7: state-transition handlers are total and never raise -/

/-- C7. For every configuration, every state and every incoming change
event — including delegated modes, where the handler additionally emits
the external callback invocation — the handler produces a result and
never an exception: the setters are total over their input domain. -/
theorem settersTotal (cfg : Option ServerSideConfig) (enableSel : Bool)
    (st : TableState) (e : Event) :
    ∃ out, step cfg enableSel st e = Except.ok out := by
  cases e <;> first
    | exact ⟨_, rfl⟩
    | (cases enableSel <;> exact ⟨_, rfl⟩)

/-! ## C3: multiSelect filter is vacuous when empty or absent, membership
otherwise -/

/-- C3. An empty or absent multi-select filter value includes every row;
a non-empty one includes a row exactly when one of the selected strings is
strictly equal to the row's cell value. -/
theorem multiSelectVacuousOrMembership (r : Row) (cid : String) :
    multiSelectFilter r cid none = true ∧
    multiSelectFilter r cid (some []) = true ∧
    (∀ l : List String, l ≠ [] →
      (multiSelectFilter r cid (some l) = true ↔
        ∃ s ∈ l, Value.str s = rowGetValue r cid)) := by
  refine ⟨rfl, rfl, fun l hl => ?_⟩
  simp [multiSelectFilter, List.length_eq_zero, hl, List.any_eq_true,
    jsStrictEq_iff]

/-- C3 witness: a non-empty selection includes the matching row, and the
empty selection includes an arbitrary row. -/
theorem multiSelectVacuousOrMembership_witness :
    multiSelectFilter [("role", Value.str "Admin")] "role"
      (some ["Admin", "User"]) = true ∧
    multiSelectFilter [("role", Value.str "Moderator")] "role"
      (some []) = true := by
  constructor
  · exact ((multiSelectVacuousOrMembership
      [("role", Value.str "Admin")] "role").2.2 ["Admin", "User"]
      (by decide)).mpr ⟨"Admin", by decide, by decide⟩
  · exact (multiSelectVacuousOrMembership
      [("role", Value.str "Moderator")] "role").2.1

/-! ## C10: select filters compare with strict equality and are bound by
the column binder -/

/-- C10. The exact-match predicate accepts exactly on strict `===`
equality of the cell and the filter value — no coercion, so a numeric cell
never matches a string filter value — and the binder attaches it to every
column whose normalized id is declared with a `select` filter. -/
theorem exactMatchStrictEquality (r : Row) (cid : String) (v : Value) :
    (exactMatchFilter r cid v = true ↔ rowGetValue r cid = v) ∧
    (∀ (n : Int) (s : String), rowGetValue r cid = .num n → v = .str s →
      exactMatchFilter r cid v = false) ∧
    (∀ (fs : List FilterConfig) (c : ColumnSpec) (i : String),
      normalizedId c = some i → (selectIdsOf fs).contains i = true →
      assignFilterFn fs c = some FilterFnKind.exactMatch) := by
  refine ⟨?_, ?_, ?_⟩
  · simp [exactMatchFilter, jsStrictEq_iff]
  · intro n s hn hv
    simp [exactMatchFilter, hn, hv, jsStrictEq]
  · intro fs c i hn hc
    have hm : i ∈ selectIdsOf fs := by simpa using hc
    simp [assignFilterFn, hn, hm]

/-- C10 witness: exact string match succeeds, a numeric cell against a
string filter value fails, and a `select` declaration binds the
exact-match predicate. -/
theorem exactMatchStrictEquality_witness :
    exactMatchFilter [("status", Value.str "Active")] "status"
      (Value.str "Active") = true ∧
    exactMatchFilter [("age", Value.num 30)] "age" (Value.str "30") = false ∧
    assignFilterFn [⟨"status", FilterType.select⟩] ⟨none, some "status"⟩ =
      some FilterFnKind.exactMatch := by
  refine ⟨?_, ?_, ?_⟩
  · exact (exactMatchStrictEquality [("status", Value.str "Active")] "status"
      (Value.str "Active")).1.mpr (by decide)
  · exact (exactMatchStrictEquality [("age", Value.num 30)] "age"
      (Value.str "30")).2.1 30 "30" (by decide) rfl
  · exact (exactMatchStrictEquality [] "" Value.null).2.2
      [⟨"status", FilterType.select⟩] ⟨none, some "status"⟩ "status"
      rfl (by decide)

/-! ## C4: date-range filter semantics -/

/-- C4 counterexample. A row whose cell is unparsable as a date is *not*
always excluded: when both bounds of the filter value are absent the
filter returns `true` before parsing, so the unparsable row is included. -/
theorem dateRangeUnparsableIncludedWithoutBounds :
    dateRangeFilter [("createdAt", Value.str "not-a-date")] "createdAt"
      (some ⟨none, none⟩) = true ∧
    parseDate (Value.str "not-a-date") = none := by
  exact ⟨by decide, by decide⟩

/-- C4 (amended). With at least one bound present, a falsy or unparsable
cell is excluded; a truthy, parsable cell is included exactly when its
parsed date lies within the present bounds, both bounds inclusive and an
absent bound open on its side; an absent filter value, or one with both
bounds absent, includes every row. No error is raised in any case. -/
theorem dateRangeBoundsSemantics (r : Row) (cid : String)
    (v : DateRangeValue) :
    dateRangeFilter r cid none = true ∧
    (v.fromDate = none ∧ v.toDate = none →
      dateRangeFilter r cid (some v) = true) ∧
    (v.fromDate ≠ none ∨ v.toDate ≠ none →
      ((truthy (rowGetValue r cid) = false ∨
          parseDate (rowGetValue r cid) = none) →
        dateRangeFilter r cid (some v) = false) ∧
      (∀ t : Int, truthy (rowGetValue r cid) = true →
        parseDate (rowGetValue r cid) = some t →
        (dateRangeFilter r cid (some v) = true ↔
          (∀ f, v.fromDate = some f → f ≤ t) ∧
          (∀ e, v.toDate = some e → t ≤ e)))) := by
  refine ⟨rfl, fun h => ?_, fun h => ⟨?_, ?_⟩⟩
  · simp [dateRangeFilter, h.1, h.2]
  · have hb : (v.fromDate == none && v.toDate == none) = false := by
      rcases h with h | h <;>
        cases hf : v.fromDate <;> cases ht : v.toDate <;> simp_all
    rintro (hfal | hpar)
    · simp [dateRangeFilter, hb, hfal]
    · cases htr : truthy (rowGetValue r cid) <;>
        simp [dateRangeFilter, hb, htr, hpar]
  · have hb : (v.fromDate == none && v.toDate == none) = false := by
      rcases h with h | h <;>
        cases hf : v.fromDate <;> cases ht : v.toDate <;> simp_all
    intro t htr hpt
    simp only [dateRangeFilter, hb, Bool.false_eq_true, if_false, htr,
      Bool.not_true, hpt]
    cases hf : v.fromDate <;> cases he : v.toDate <;>
      simp [hf, he] <;> omega

/-- C4 witness for the amended theorem: a cell equal to both bounds is
included (closed bounds); an unparsable cell is excluded once a bound is
present; a missing upper bound is open. -/
theorem dateRangeBoundsSemantics_witness :
    dateRangeFilter [("createdAt", Value.str "2024-03-15")] "createdAt"
      (some ⟨some 20240315, some 20240315⟩) = true ∧
    dateRangeFilter [("createdAt", Value.str "not-a-date")] "createdAt"
      (some ⟨some 20240315, none⟩) = false ∧
    dateRangeFilter [("createdAt", Value.str "2026-01-01")] "createdAt"
      (some ⟨some 20240315, none⟩) = true := by
  refine ⟨?_, ?_, ?_⟩
  · exact (((dateRangeBoundsSemantics
      [("createdAt", Value.str "2024-03-15")] "createdAt"
      ⟨some 20240315, some 20240315⟩).2.2 (by simp)).2 20240315
      (by decide) (by decide)).mpr (by constructor <;> intro x hx <;>
        (injection hx with hx; omega))
  · exact ((dateRangeBoundsSemantics
      [("createdAt", Value.str "not-a-date")] "createdAt"
      ⟨some 20240315, none⟩).2.2 (by simp)).1 (Or.inr (by decide))
  · exact (((dateRangeBoundsSemantics
      [("createdAt", Value.str "2026-01-01")] "createdAt"
      ⟨some 20240315, none⟩).2.2 (by simp)).2 20260101
      (by decide) (by decide)).mpr (by constructor <;> intro x hx <;>
        simp_all <;> omega)

/-! ## C5: there is no numeric range predicate -/

/-- C5 counterexample. The claim requires the binder to attach a numeric
range predicate to every column declared with a `number` filter; in fact
`processedColumns` has no branch for `number` declarations, so the `age`
column of the scenario is bound to no predicate at all (its `filterFn`
stays unset and filtering falls back to the table library's default over
the raw input string — the `{from:25}` range scenario is not produced by
any predicate of this repository). -/
theorem numberFilterBindsNoPredicate :
    processedColumns [⟨none, some "age"⟩] [⟨"age", FilterType.number⟩] =
      [⟨⟨none, some "age"⟩, none⟩] := by
  decide

/-- C5 (amended). `number` (and `text`) filter declarations never cause
the binder to attach a predicate: over any column list, a declaration list
containing only `number` and `text` declarations leaves every column's
filter function unset. -/
theorem numberAndTextFiltersNeverBind (cols : List ColumnSpec)
    (fs : List FilterConfig)
    (h : ∀ f ∈ fs, f.type = FilterType.number ∨ f.type = FilterType.text) :
    processedColumns cols fs = cols.map (fun c => ⟨c, none⟩) := by
  have hsel : selectIdsOf fs = [] := by
    simp only [selectIdsOf, List.map_eq_nil, List.filter_eq_nil]
    intro f hf
    rcases h f hf with ht | ht <;> simp [ht]
  have hmul : multiSelectIdsOf fs = [] := by
    simp only [multiSelectIdsOf, List.map_eq_nil, List.filter_eq_nil]
    intro f hf
    rcases h f hf with ht | ht <;> simp [ht]
  have hdr : dateRangeIdsOf fs = [] := by
    simp only [dateRangeIdsOf, List.map_eq_nil, List.filter_eq_nil]
    intro f hf
    rcases h f hf with ht | ht <;> simp [ht]
  unfold processedColumns
  apply List.map_congr_left
  intro c _
  unfold assignFilterFn
  cases normalizedId c <;> simp [hsel, hmul, hdr]

/-- C5 witness for the amended theorem: the scenario's `age` column with
its `number` declaration is left without a bound predicate. -/
theorem numberAndTextFiltersNeverBind_witness :
    processedColumns [⟨none, some "age"⟩, ⟨none, some "name"⟩]
      [⟨"age", FilterType.number⟩, ⟨"name", FilterType.text⟩] =
      [⟨⟨none, some "age"⟩, none⟩, ⟨⟨none, some "name"⟩, none⟩] :=
  numberAndTextFiltersNeverBind
    [⟨none, some "age"⟩, ⟨none, some "name"⟩]
    [⟨"age", FilterType.number⟩, ⟨"name", FilterType.text⟩]
    (by decide)

/-! ## C8: a filter declaration whose columnId matches no column is inert -/

/-- Membership in the id list of a kind of declaration is unchanged by
inserting a declaration with a different columnId. -/
theorem filteredIds_insert_ne (p : FilterConfig → Bool)
    (fs1 fs2 : List FilterConfig) (d : FilterConfig) (i : String)
    (h : i ≠ d.columnId) :
    ((((fs1 ++ d :: fs2).filter p).map (fun f => f.columnId)).contains i) =
    ((((fs1 ++ fs2).filter p).map (fun f => f.columnId)).contains i) := by
  cases hd : p d <;>
    simp [List.filter_append, List.filter_cons, hd, List.elem_eq_mem,
      List.mem_append, h]

/-- C8. A filter declaration whose `columnId` matches no column's
normalized id is silently inert: the bound predicates of every column are
exactly what they would be without the declaration, and `renderFilter`
renders no control for it (returns `null`), without error. -/
theorem unknownColumnIdInert (cols : List ColumnSpec)
    (fs1 fs2 : List FilterConfig) (d : FilterConfig)
    (h : ∀ c ∈ cols, normalizedId c ≠ some d.columnId) :
    processedColumns cols (fs1 ++ d :: fs2) =
      processedColumns cols (fs1 ++ fs2) ∧
    renderFilter cols d = none := by
  constructor
  · unfold processedColumns
    apply List.map_congr_left
    intro c hc
    cases hn : normalizedId c with
    | none => simp [assignFilterFn, hn]
    | some i =>
      have hne : i ≠ d.columnId := by
        intro he
        exact h c hc (by rw [hn, he])
      have h1 := filteredIds_insert_ne
        (fun f => f.type == FilterType.select) fs1 fs2 d i hne
      have h2 := filteredIds_insert_ne
        (fun f => f.type == FilterType.multiSelect) fs1 fs2 d i hne
      have h3 := filteredIds_insert_ne
        (fun f => f.type == FilterType.dateRange) fs1 fs2 d i hne
      simp only [assignFilterFn, hn, selectIdsOf, multiSelectIdsOf,
        dateRangeIdsOf, h1, h2, h3]
  · unfold renderFilter getColumn
    rw [List.find?_eq_none.mpr]
    intro c hc
    simpa using h c hc

/-- C8 witness: declaring a filter for a non-existent column `"ghost"`
changes no binding over the demo columns and renders no control. -/
theorem unknownColumnIdInert_witness :
    processedColumns [⟨none, some "role"⟩, ⟨none, some "status"⟩]
        ([⟨"role", FilterType.multiSelect⟩] ++
          ⟨"ghost", FilterType.select⟩ :: [⟨"status", FilterType.select⟩]) =
      processedColumns [⟨none, some "role"⟩, ⟨none, some "status"⟩]
        ([⟨"role", FilterType.multiSelect⟩] ++ [⟨"status", FilterType.select⟩]) ∧
    renderFilter [⟨none, some "role"⟩, ⟨none, some "status"⟩]
      ⟨"ghost", FilterType.select⟩ = none :=
  unknownColumnIdInert [⟨none, some "role"⟩, ⟨none, some "status"⟩]
    [⟨"role", FilterType.multiSelect⟩] [⟨"status", FilterType.select⟩]
    ⟨"ghost", FilterType.select⟩ (by decide)

/-! ## C9: non-delegated pagination is an exact slice -/

/-- C9. The `GET` pipeline pages the filtered-then-sorted row list with an
exact slice `rows[page*pageSize : page*pageSize + pageSize]`: position `i`
of the page is position `page*pageSize + i` of the list, nothing beyond
`pageSize` is produced, and a page index past the end yields the empty
list rather than an error. -/
theorem paginationSlicing (users : List User) (p : QueryParams) :
    processUsersQuery users p =
      paginateUsers (sortUsers (filterUsers users p) p.sortBy p.sortOrder)
        p.page p.pageSize ∧
    ∀ (rows : List User) (page size : Nat),
      (∀ i, i < size →
        (paginateUsers rows page size)[i]? = rows[page * size + i]?) ∧
      (∀ i, size ≤ i → (paginateUsers rows page size)[i]? = none) ∧
      (rows.length ≤ page * size → paginateUsers rows page size = []) := by
  refine ⟨rfl, fun rows page size => ⟨fun i hi => ?_, fun i hi => ?_, fun h => ?_⟩⟩
  · simp [paginateUsers, List.getElem?_take, List.getElem?_drop, hi]
  · simp [paginateUsers, List.getElem?_take]
    omega
  · simp [paginateUsers, List.drop_eq_nil_of_le h]

/-- The 25 distinct rows of the C9 page-slicing scenario. -/
def pageDemoRows : List User :=
  (List.range 25).map (fun i =>
    { id := (i : Int), name := "U", email := "e", role := "User",
      status := "Active", createdAt := "2024-01-01", age := (20 + i : Int) })

/-- A query with no filters, no sort, page 0 of size 10. -/
def emptyQuery : QueryParams :=
  ⟨0, 10, none, none, none, none, none, none, none, none, none, none⟩

/-- C9 witness: with `pageSize = 10` over 25 rows, page 0 row 0 is list
row 0, page 2 row 4 is list row 24, page 2 has no row 5, and page 3 is
empty. -/
theorem paginationSlicing_witness :
    (paginateUsers pageDemoRows 0 10)[0]? = pageDemoRows[0]? ∧
    (paginateUsers pageDemoRows 2 10)[4]? = pageDemoRows[24]? ∧
    (paginateUsers pageDemoRows 2 10)[5]? = none ∧
    paginateUsers pageDemoRows 3 10 = [] := by
  have h := (paginationSlicing [] emptyQuery).2
  refine ⟨(h pageDemoRows 0 10).1 0 (by decide),
    ?_, ?_, (h pageDemoRows 3 10).2.2 (by decide)⟩
  · have := (h pageDemoRows 2 10).1 4 (by decide)
    simpa using this
  · have hlen : (paginateUsers pageDemoRows 2 10).length ≤ 5 := by decide
    exact List.getElem?_eq_none hlen

/-! ## C2: delegating sorting but not filtering -/

/-- C2. When the caller supplies the sorting-changed callback (sorting
delegated) and filtering is not delegated, a sorting-only change invokes
exactly the sorting callback with the new sort state — no filtering
callback — and leaves the active filter state, and hence the locally
computed filtered row set, unchanged. -/
theorem sortOnlyChangeIndependence (c : ServerSideConfig) (enableSel : Bool)
    (st : TableState) (u : SortingState → SortingState)
    (cols : List ColumnSpec) (fs : List FilterConfig) (data : List Row)
    (hcb : c.hasOnSortingChange = true)
    (hms : manualSorting (some c) = true)
    (hmf : manualFiltering (some c) = false) :
    step (some c) enableSel st (.sortingChange u) =
      Except.ok ({ st with sorting := u st.sorting },
        [Emit.sortingChanged (u st.sorting)]) ∧
    ({ st with sorting := u st.sorting }).columnFilters = st.columnFilters ∧
    localFilteredRows cols fs data
        ({ st with sorting := u st.sorting }).columnFilters =
      localFilteredRows cols fs data st.columnFilters := by
  refine ⟨?_, rfl, rfl⟩
  simp [step, hcb]

/-- A configuration delegating sorting only: the sorting callback is
supplied and `manualSorting` is overridden to `true`, while
`manualFiltering` falls back to the disabled top-level flag. -/
def sortOnlyConfig : ServerSideConfig :=
  { enabled := false, pageCount := -1, loading := false,
    hasOnPaginationChange := false, hasOnSortingChange := true,
    hasOnColumnFiltersChange := false,
    manualPagination := none, manualSorting := some true,
    manualFiltering := none }

/-- The initial state of the C2 scenario: an active role filter. -/
def sortDemoState : TableState :=
  { sorting := [], columnFilters := [("role", .multi ["Admin"])],
    columnVisibility := [], rowSelection := [],
    pagination := { pageIndex := 0, pageSize := 10 } }

/-- C2 witness: on a concrete delegated-sorting configuration, a concrete
sort change emits exactly the sorting callback and keeps the filter state
and filtered rows of a concrete data set unchanged. -/
theorem sortOnlyChangeIndependence_witness :
    step (some sortOnlyConfig) true sortDemoState
        (.sortingChange (fun _ => [⟨"age", true⟩])) =
      Except.ok ({ sortDemoState with sorting := [⟨"age", true⟩] },
        [Emit.sortingChanged [⟨"age", true⟩]]) ∧
    localFilteredRows [⟨none, some "role"⟩] [⟨"role", FilterType.multiSelect⟩]
        [[("role", Value.str "Admin")], [("role", Value.str "User")]]
        ({ sortDemoState with sorting := [⟨"age", true⟩] }).columnFilters =
      localFilteredRows [⟨none, some "role"⟩] [⟨"role", FilterType.multiSelect⟩]
        [[("role", Value.str "Admin")], [("role", Value.str "User")]]
        sortDemoState.columnFilters := by
  have h := sortOnlyChangeIndependence sortOnlyConfig true sortDemoState
    (fun _ => [⟨"age", true⟩]) [⟨none, some "role"⟩]
    [⟨"role", FilterType.multiSelect⟩]
    [[("role", Value.str "Admin")], [("role", Value.str "User")]]
    rfl rfl rfl
  exact ⟨h.1, h.2.2⟩

/-! ## C6: desc sorting reverses the asc result; asc sorting is stable -/

/-- Lexicographic character comparison is reflexive-zero. -/
theorem cmpChars_self (l : List Char) : cmpChars l l = 0 := by
  induction l with
  | nil => rfl
  | cons a t ih => simp [cmpChars, ih]

/-- Rows whose sort-key fields are equal compare as a tie. -/
theorem cmpUsers_eq_zero_of_field_eq (sb : String) (a b : User)
    (h : userField a sb = userField b sb) : cmpUsers sb a b = 0 := by
  unfold cmpUsers
  rw [h]
  cases hv : userField b sb <;>
    simp [compareStrings, cmpChars_self] <;>
    split <;> simp [compareStrings, cmpChars_self]

/-- Tied rows satisfy the non-strict sort order, in both directions. -/
theorem userLe_of_field_eq (sb : String) (a b : User)
    (h : userField a sb = userField b sb) : userLe sb a b = true := by
  unfold userLe
  rw [cmpUsers_eq_zero_of_field_eq sb a b h]
  decide

/-- Inserting an element that is ≤ every element of a class keeps it in
front of that class: the `p`-filtered image gains `x` at the head. -/
theorem filter_stableInsert_pos (le : User → User → Bool) (x : User)
    (p : User → Bool) (hx : p x = true)
    (hle : ∀ y, p y = true → le x y = true) :
    ∀ m, (stableInsert le x m).filter p = x :: m.filter p := by
  intro m
  induction m with
  | nil => simp [stableInsert, hx]
  | cons b t ih =>
    by_cases hb : le x b = true
    · simp [stableInsert, hb, List.filter_cons, hx]
    · have hpb : p b = false := by
        cases hpb : p b
        · rfl
        · exact absurd (hle b hpb) (by simpa using hb)
      simp [stableInsert, hb, List.filter_cons, hpb, ih]

/-- Inserting an element outside the class leaves the class's filtered
image untouched. -/
theorem filter_stableInsert_neg (le : User → User → Bool) (x : User)
    (p : User → Bool) (hx : p x = false) :
    ∀ m, (stableInsert le x m).filter p = m.filter p := by
  intro m
  induction m with
  | nil => simp [stableInsert, List.filter_cons, hx]
  | cons b t ih =>
    by_cases hb : le x b = true <;>
      simp [stableInsert, hb, List.filter_cons, hx, ih]

/-- Stability of the insertion sort: when all members of the class
selected by `p` are mutually ≤, sorting preserves the class's relative
order exactly. -/
theorem filter_stableSortBy (le : User → User → Bool) (p : User → Bool)
    (hcomp : ∀ x y, p x = true → p y = true → le x y = true) :
    ∀ l, (stableSortBy le l).filter p = l.filter p := by
  intro l
  induction l with
  | nil => rfl
  | cons x t ih =>
    cases hx : p x
    · rw [show stableSortBy le (x :: t) = stableInsert le x (stableSortBy le t)
        from rfl, filter_stableInsert_neg le x p hx, ih, List.filter_cons]
      simp [hx]
    · rw [show stableSortBy le (x :: t) = stableInsert le x (stableSortBy le t)
        from rfl, filter_stableInsert_pos le x p hx
          (fun y hy => hcomp x y hx hy), ih, List.filter_cons]
      simp [hx]

/-- C6. For any truthy sort column, `sortUsers` with `desc` returns the
exact reverse of the `asc` result (the comparator is not negated), and the
`asc` result is stable: rows sharing an equal sort key keep their original
relative order. Since every request re-sorts the same base list, toggling
the direction twice therefore reproduces the first ordering exactly. -/
theorem sortingDescReversesAndStable (users : List User) (sb : String)
    (hsb : sb ≠ "") :
    sortUsers users (some sb) (some "desc") =
      (sortUsers users (some sb) (some "asc")).reverse ∧
    ∀ k : Value, (sortUsers users (some sb) (some "asc")).filter
        (fun u => decide (userField u sb = k)) =
      users.filter (fun u => decide (userField u sb = k)) := by
  have hne : (sb == "") = false := by simpa using hsb
  have hdesc : ((some "desc" : Option String) == some "desc") = true := by decide
  have hasc : ((some "asc" : Option String) == some "desc") = false := by decide
  constructor
  · simp [sortUsers, hne, hdesc, hasc]
  · intro k
    simp only [sortUsers, hne, Bool.false_eq_true, if_false, hasc]
    exact filter_stableSortBy (userLe sb) _ (fun x y hx hy => by
      have hx' : userField x sb = k := of_decide_eq_true hx
      have hy' : userField y sb = k := of_decide_eq_true hy
      exact userLe_of_field_eq sb x y (hx'.trans hy'.symm)) users

/-- The three rows of the spec's sorting scenario (ages 30, 22, 45). -/
def ageDemoUsers : List User :=
  [⟨1, "A", "a@x", "Admin", "Active", "2024-01-01", 30⟩,
   ⟨2, "B", "b@x", "User", "Active", "2024-01-02", 22⟩,
   ⟨3, "C", "c@x", "Admin", "Inactive", "2024-01-03", 45⟩]

/-- C6 witness: over the scenario rows, descending by age is the reverse
of ascending, and the filtered image of any fixed key is unchanged by the
ascending sort. -/
theorem sortingDescReversesAndStable_witness :
    sortUsers ageDemoUsers (some "age") (some "desc") =
      (sortUsers ageDemoUsers (some "age") (some "asc")).reverse ∧
    (sortUsers ageDemoUsers (some "age") (some "asc")).filter
        (fun u => decide (userField u "age" = Value.num 30)) =
      ageDemoUsers.filter (fun u => decide (userField u "age" = Value.num 30)) :=
  ⟨(sortingDescReversesAndStable ageDemoUsers "age" (by decide)).1,
   (sortingDescReversesAndStable ageDemoUsers "age" (by decide)).2
     (Value.num 30)⟩
